import Mathlib

/-
  Verification development for the page-loader pipeline (src/pageLoader.js).

  The JavaScript source is shallowly embedded: pure helpers (filename
  generation, URL hostname comparison, the textual rewrite steps) become Lean
  functions over `String` (modelled as its list of characters), and the
  effectful pipeline (`processAllResources`, `load`) becomes a function from an
  explicit network oracle to a record of the filesystem writes it performs and
  the value or error it returns.  External collaborators (the WHATWG URL
  resolver, the axios HTTP client, cheerio element scanning, node:path joins)
  are modelled explicitly where noted in doc comments.
-/

/-- Boolean test that the first list is a prefix of the second
(characterises JavaScript `String.prototype.startsWith` on the char lists). -/
def isPrefixL : List Char → List Char → Bool
  | [], _ => true
  | _ :: _, [] => false
  | a :: as, b :: bs => a == b && isPrefixL as bs

/-- Index of the first occurrence of `pat` in a char list, if any
(characterises JavaScript `String.prototype.indexOf`). -/
def firstOccIdx (pat : List Char) : List Char → Option Nat
  | [] => if isPrefixL pat [] then some 0 else none
  | c :: rest =>
    if isPrefixL pat (c :: rest) then some 0
    else (firstOccIdx pat rest).map (· + 1)

/-- Replace the first occurrence of `pat` by `rep`, leaving the list unchanged
when `pat` does not occur.  This is the semantics of JavaScript
`String.prototype.replace` with a plain string pattern, used pervasively by
the source (`modifiedHtml.replace(src, newSrc)` and friends). -/
def replaceFirstL (pat rep : List Char) : List Char → List Char
  | [] => if isPrefixL pat [] then rep else []
  | c :: rest =>
    if isPrefixL pat (c :: rest) then rep ++ (c :: rest).drop pat.length
    else c :: replaceFirstL pat rep rest

/-- JavaScript `s.replace(pat, rep)` with a string pattern: first occurrence
only. -/
def jsReplaceFirst (s pat rep : String) : String :=
  ⟨replaceFirstL pat.data rep.data s.data⟩

/-- JavaScript `s.includes(pat)`. -/
def substrB (pat s : String) : Bool :=
  (firstOccIdx pat.data s.data).isSome

/-- Index of the last occurrence of a character in a char list. -/
def lastIdxOf (c : Char) : List Char → Option Nat
  | [] => none
  | a :: rest =>
    match lastIdxOf c rest with
    | some i => some (i + 1)
    | none => if a == c then some 0 else none

/-- Index of the first occurrence of a character in a char list. -/
def idxOfChar (c : Char) : List Char → Option Nat
  | [] => none
  | a :: rest => if a == c then some 0 else (idxOfChar c rest).map (· + 1)

/-- The character substitution of the source's naming helpers:
`.replace(/[^a-zA-Z0-9]/g, '-')`. -/
def charSub (s : String) : String :=
  ⟨s.data.map (fun c => if c.isAlphanum then c else '-')⟩

/-- The source's `.replace(/\/$/, '')`: strip one trailing slash. -/
def stripTrailingSlash (s : String) : String :=
  if s.data.getLastD 'x' == '/' then ⟨s.data.dropLast⟩ else s

/-- Models `node:path` `extname` for the URL pathnames reachable here: the
extension runs from the last dot of the final path segment to its end, and is
empty when that segment has no dot or starts with its only dot. -/
def extnameOf (p : String) : String :=
  let b := (p.data.reverse.takeWhile (fun c => c != '/')).reverse
  match lastIdxOf '.' b with
  | none => ""
  | some 0 => ""
  | some i => ⟨b.drop i⟩

/-- Everything up to and including the last slash of a path (used for
relative-reference resolution against the page URL). -/
def dirnameOf (p : String) : String :=
  match lastIdxOf '/' p.data with
  | none => ""
  | some i => ⟨p.data.take (i + 1)⟩

/-- Remove `suffix` from the end of a char list when it is a suffix, else
return the list unchanged.  Used only by the spec-side comparison definition
for claim C9 ("strip the path's file extension"). -/
def stripSuffixL (suffix l : List Char) : List Char :=
  if isPrefixL suffix.reverse l.reverse then l.take (l.length - suffix.length) else l

/-- An absolute URL as the pipeline consumes it: the source only ever reads
`hostname`, `pathname` and `href` from the `URL` objects it builds. -/
structure Url where
  protocol : String
  hostname : String
  pathname : String
deriving Repr, DecidableEq

/-- The `href` string of a URL object, `protocol + "//" + hostname + pathname`. -/
def Url.href (u : Url) : String :=
  u.protocol ++ "//" ++ u.hostname ++ u.pathname

/-- Split `rest` (an absolute URL with its scheme removed) at the first slash
into hostname and pathname; the pathname defaults to "/". -/
def splitHostPath (proto : String) (rest : List Char) : Url :=
  match idxOfChar '/' rest with
  | none => ⟨proto, ⟨rest⟩, "/"⟩
  | some i => ⟨proto, ⟨rest.take i⟩, ⟨rest.drop i⟩⟩

/-- Models the WHATWG `new URL(ref, base)` resolution used by the source, for
the reference shapes the pipeline meets: absolute http(s) URLs,
protocol-relative, path-absolute, and plain relative references (no
dot-segment, query or fragment handling). -/
def resolveUrl (ref : String) (base : Url) : Url :=
  if isPrefixL "https://".data ref.data then splitHostPath "https:" (ref.data.drop 8)
  else if isPrefixL "http://".data ref.data then splitHostPath "http:" (ref.data.drop 7)
  else if isPrefixL "//".data ref.data then splitHostPath base.protocol (ref.data.drop 2)
  else if isPrefixL "/".data ref.data then ⟨base.protocol, base.hostname, ref⟩
  else ⟨base.protocol, base.hostname, dirnameOf base.pathname ++ ref⟩

/-- Source `generateFilename`: hostname + pathname, trailing slash stripped,
every character outside [A-Za-z0-9] replaced by '-', then ".html". -/
def generateFilename (u : Url) : String :=
  charSub (stripTrailingSlash (u.hostname ++ u.pathname)) ++ ".html"

/-- Source `generateResourceDirName`: same transform, then "_files". -/
def generateResourceDirName (u : Url) : String :=
  charSub (stripTrailingSlash (u.hostname ++ u.pathname)) ++ "_files"

/-- Source `generateResourceFileName`: take `extname` of the pathname,
defaulting to ".html" when empty; remove the FIRST occurrence of that
extension substring from the pathname (JavaScript `String.replace`); apply the
character substitution to hostname + that; re-append the extension. -/
def generateResourceFileName (u : Url) : String :=
  let ext0 := extnameOf u.pathname
  let ext := if ext0 == "" then ".html" else ext0
  let pathWithoutExtension := jsReplaceFirst u.pathname ext ""
  charSub (u.hostname ++ pathWithoutExtension) ++ ext

/-- Modelled from the spec (section 4.1), as the comparison definition for
claim C9: "strip the path's file extension; if absent, default the extension
to `.html`; apply the same character substitution to hostname +
extensionless-path; re-append the extension."  Stripping the file extension
removes the trailing extension, by contrast with the source's first-occurrence
removal. -/
def specResourceFileName (u : Url) : String :=
  let ext0 := extnameOf u.pathname
  let ext := if ext0 == "" then ".html" else ext0
  let pathWithoutExtension : String := ⟨stripSuffixL ext.data u.pathname.data⟩
  charSub (u.hostname ++ pathWithoutExtension) ++ ext

/-- Source `isLocalResource`: the hostnames of the two URLs coincide. -/
def isLocalResource (resourceUrl pageUrl : Url) : Bool :=
  resourceUrl.hostname == pageUrl.hostname

/-- A structured transport failure as axios raises it: an HTTP error response
with a status code, or a request error carrying a node error code
(ENOTFOUND, ECONNREFUSED, ETIMEDOUT), or anything else with a message. -/
inductive TransportError where
  | httpStatus (code : Nat)
  | dnsFail
  | connRefused
  | timedOut
  | other (msg : String)
deriving Repr, DecidableEq

/-- The `error.message` string of the axios error, as wrapped into the
"anything else" branches of the source's catch blocks. -/
def errMessage : TransportError → String
  | .httpStatus c => "Request failed with status code " ++ toString c
  | .dnsFail => "getaddrinfo ENOTFOUND"
  | .connRefused => "connect ECONNREFUSED"
  | .timedOut => "timeout exceeded"
  | .other m => m

/-- The `error.response?.status` of an axios error: present exactly for HTTP
error responses. -/
def statusOf : TransportError → Option Nat
  | .httpStatus c => some c
  | _ => none

/-- A successful HTTP response as the axios collaborator delivers it:
`binaryBody` is the raw byte payload (what `responseType: 'arraybuffer'`
yields) and `textBody` is the client's textual interpretation of that payload
(what the default response handling yields). -/
structure HttpOk where
  binaryBody : List Nat
  textBody : String
deriving Repr, DecidableEq

/-- The network oracle: what `axios.get` produces at each URL. -/
def Net := Url → Except TransportError HttpOk

/-- The spec's error taxonomy for fetch failures (section 7). -/
inductive ErrKind where
  | NotFound
  | Forbidden
  | ServerError
  | HostUnresolved
  | ConnectionRefused
  | Timeout
  | NetworkError
deriving Repr, DecidableEq

/-- Modelled from the spec: the uniform failure table of section 4.3,
claimed to apply identically to the page fetch and every resource fetch. -/
def specFailureKind : TransportError → ErrKind
  | .httpStatus c =>
    if c == 404 then .NotFound
    else if c == 403 then .Forbidden
    else if c ≥ 500 then .ServerError
    else .NetworkError
  | .dnsFail => .HostUnresolved
  | .connRefused => .ConnectionRefused
  | .timedOut => .Timeout
  | .other _ => .NetworkError

/-- The collapsing that the resource-fetch catch blocks apply relative to the
spec's uniform table: they have no branches for 403, connection-refused or
timeout, so those fall into the generic network-error wrap. -/
def collapseResourceKind : ErrKind → ErrKind
  | .Forbidden => .NetworkError
  | .ConnectionRefused => .NetworkError
  | .Timeout => .NetworkError
  | k => k

/-- The catch block of `load` for the page fetch: the error message thrown for
each transport failure, with the branch conditions exactly as in the source
(`error.response?.status === 404`, `=== 403`, `>= 500`, then the node error
codes, then the generic wrap). -/
def mapPageError (url : String) (e : TransportError) : String :=
  if statusOf e == some 404 then "Page not found (404): " ++ url
  else if statusOf e == some 403 then "Access forbidden (403): " ++ url
  else if (statusOf e).getD 0 ≥ 500 then
    "Server error (" ++ toString ((statusOf e).getD 0) ++ "): " ++ url
  else if e == .dnsFail then "Cannot resolve hostname: " ++ url
  else if e == .connRefused then "Connection refused: " ++ url
  else if e == .timedOut then "Request timeout: " ++ url
  else "Network error: " ++ url ++ " - " ++ errMessage e

/-- Which taxonomy kind the page-fetch catch block of `load` produces: the
same branch chain as `mapPageError`, abstracted to the kind each message
prefix belongs to. -/
def pageErrKind (e : TransportError) : ErrKind :=
  if statusOf e == some 404 then .NotFound
  else if statusOf e == some 403 then .Forbidden
  else if (statusOf e).getD 0 ≥ 500 then .ServerError
  else if e == .dnsFail then .HostUnresolved
  else if e == .connRefused then .ConnectionRefused
  else if e == .timedOut then .Timeout
  else .NetworkError

/-- The catch block of `downloadImage`: 404, then status >= 500, then
ENOTFOUND, then the generic "Failed to download image" wrap.  There are no
403, ECONNREFUSED or ETIMEDOUT branches here. -/
def mapImageError (url : String) (e : TransportError) : String :=
  if statusOf e == some 404 then "Image not found (404): " ++ url
  else if (statusOf e).getD 0 ≥ 500 then
    "Server error (" ++ toString ((statusOf e).getD 0) ++ "): " ++ url
  else if e == .dnsFail then "Cannot resolve hostname for image: " ++ url
  else "Failed to download image: " ++ url ++ " - " ++ errMessage e

/-- Which taxonomy kind the `downloadImage` catch block produces. -/
def imageErrKind (e : TransportError) : ErrKind :=
  if statusOf e == some 404 then .NotFound
  else if (statusOf e).getD 0 ≥ 500 then .ServerError
  else if e == .dnsFail then .HostUnresolved
  else .NetworkError

/-- The catch block of `downloadTextResource`: same branch chain as
`downloadImage`, with "resource" wording. -/
def mapTextResourceError (url : String) (e : TransportError) : String :=
  if statusOf e == some 404 then "Resource not found (404): " ++ url
  else if (statusOf e).getD 0 ≥ 500 then
    "Server error (" ++ toString ((statusOf e).getD 0) ++ "): " ++ url
  else if e == .dnsFail then "Cannot resolve hostname for resource: " ++ url
  else "Failed to download resource: " ++ url ++ " - " ++ errMessage e

/-- Which taxonomy kind the `downloadTextResource` catch block produces. -/
def textErrKind (e : TransportError) : ErrKind :=
  if statusOf e == some 404 then .NotFound
  else if (statusOf e).getD 0 ≥ 500 then .ServerError
  else if e == .dnsFail then .HostUnresolved
  else .NetworkError

/-- What a resource download delivers for writing to disk: `downloadImage`
yields the raw bytes (arraybuffer), `downloadTextResource` yields the client's
textual interpretation. -/
inductive FileContent where
  | bin (bytes : List Nat)
  | txt (s : String)
deriving Repr, DecidableEq

/-- Source `downloadImage`: `axios.get(url, { responseType: 'arraybuffer' })`,
returning the raw byte payload; failures mapped by its catch block. -/
def downloadImage (net : Net) (u : Url) : Except String FileContent :=
  match net u with
  | .ok r => .ok (.bin r.binaryBody)
  | .error e => .error (mapImageError u.href e)

/-- Source `downloadTextResource`: `axios.get(url)` with the default response
handling, returning the textual body; failures mapped by its catch block. -/
def downloadTextResource (net : Net) (u : Url) : Except String FileContent :=
  match net u with
  | .ok r => .ok (.txt r.textBody)
  | .error e => .error (mapTextResourceError u.href e)

/-- The result of the cheerio scan, as an oracle: the `src` attribute of each
`img`, the `href` of each `link[rel="stylesheet"]`, the `src` of each
`script[src]`, and the `href` of each `link[rel="canonical"]`, in document
order, `none` when the attribute is absent. -/
structure Scan where
  imgSrcs : List (Option String)
  cssHrefs : List (Option String)
  scriptSrcs : List (Option String)
  canonicalHrefs : List (Option String)
deriving Repr

/-- The per-kind filter loop of `processAllResources`: keep the attributes
that are present and truthy (non-empty), resolve them against the page URL,
and keep those whose hostname matches the page's (`isLocalResource`).
Returns the original attribute string paired with the resolved URL. -/
def qualifying (base : Url) (attrs : List (Option String)) : List (String × Url) :=
  attrs.filterMap (fun a? =>
    match a? with
    | none => none
    | some s =>
      if s == "" then none
      else
        let ru := resolveUrl s base
        if isLocalResource ru base then some (s, ru) else none)

/-- One fan-out batch of `processAllResources` (a promise array awaited with
`Promise.all`), run as a sequential schedule: each item's fetch, file write
and replacement-pair computation in order, stopping at the first failing
fetch.  Returns the file writes performed together with either the
replacement pairs (original reference, local relative path) or the first
error. -/
def runPhase (fetch : Url → Except String FileContent)
    (resourceDir resourceDirName : String) :
    List (String × Url) → List (String × FileContent) × Except String (List (String × String))
  | [] => ([], .ok [])
  | (s, u) :: rest =>
    match fetch u with
    | .error e => ([], .error e)
    | .ok payload =>
      let fileName := generateResourceFileName u
      let w := (resourceDir ++ "/" ++ fileName, payload)
      let rep := (s, resourceDirName ++ "/" ++ fileName)
      let (ws, r) := runPhase fetch resourceDir resourceDirName rest
      (w :: ws, r.map (rep :: ·))

/-- The replacement loop for images, scripts and canonical links:
`modifiedHtml = modifiedHtml.replace(orig, local)` for each result in order
(first occurrence only, by JavaScript `replace` semantics). -/
def applyPlainReps (doc : String) (reps : List (String × String)) : String :=
  reps.foldl (fun d p => jsReplaceFirst d p.1 p.2) doc

/-- The replacement loop for stylesheets:
`modifiedHtml.replace('href="' + orig + '" />', 'href="' + local + '">')`
for each result in order. -/
def applyCssReps (doc : String) (reps : List (String × String)) : String :=
  reps.foldl
    (fun d p => jsReplaceFirst d ("href=\"" ++ p.1 ++ "\" />") ("href=\"" ++ p.2 ++ "\">"))
    doc

/-- Source `processAllResources`: create the resource directory, then run the
four per-kind batches in order — images, stylesheets, scripts, canonical
links — awaiting each batch fully before the next, applying each batch's
replacements to the accumulated document.  Returns the resource-file writes
performed together with the rewritten document or the first error.  Directory
joins are modelled as `dir ++ "/" ++ name`. -/
def processAllResources (html : String) (pageUrl : Url) (outputDir : String)
    (scan : Scan) (net : Net) :
    List (String × FileContent) × Except String String :=
  let resourceDirName := generateResourceDirName pageUrl
  let resourceDir := outputDir ++ "/" ++ resourceDirName
  match runPhase (downloadImage net) resourceDir resourceDirName
      (qualifying pageUrl scan.imgSrcs) with
  | (w1, .error m) => (w1, .error m)
  | (w1, .ok reps1) =>
    let h1 := applyPlainReps html reps1
    match runPhase (downloadTextResource net) resourceDir resourceDirName
        (qualifying pageUrl scan.cssHrefs) with
    | (w2, .error m) => (w1 ++ w2, .error m)
    | (w2, .ok reps2) =>
      let h2 := applyCssReps h1 reps2
      match runPhase (downloadTextResource net) resourceDir resourceDirName
          (qualifying pageUrl scan.scriptSrcs) with
      | (w3, .error m) => (w1 ++ w2 ++ w3, .error m)
      | (w3, .ok reps3) =>
        let h3 := applyPlainReps h2 reps3
        match runPhase (downloadTextResource net) resourceDir resourceDirName
            (qualifying pageUrl scan.canonicalHrefs) with
        | (w4, .error m) => (w1 ++ w2 ++ w3 ++ w4, .error m)
        | (w4, .ok reps4) =>
          (w1 ++ w2 ++ w3 ++ w4, .ok (applyPlainReps h3 reps4))

/-- The cheap pre-check of `load`:
`html.includes('<img') || html.includes('<link') || html.includes('<script')`. -/
def hasRes (html : String) : Bool :=
  substrB "<img" html || substrB "<link" html || substrB "<script" html

deriving instance DecidableEq for Except

/-- The observable outcome of one `load` run: whether the resource directory
was created (`mkdir` reached), the resource-file writes, the main page file
write if reached, and the returned file path or thrown error. -/
structure LoadOutcome where
  resourceDirCreated : Bool
  resourceWrites : List (String × FileContent)
  pageWrite : Option (String × FileContent)
  result : Except String String
deriving Repr, DecidableEq

/-- Source `load`: fetch the page (mapping failures with its catch block),
run the pre-check, process resources when it passes, and finally write the
processed document to `outputDir/pageFileName`.  `path.resolve` of the output
file is modelled as `outputDir ++ "/" ++ filename`. -/
def load (u : Url) (outputDir : String) (scan : Scan) (net : Net) : LoadOutcome :=
  let filename := generateFilename u
  let filepath := outputDir ++ "/" ++ filename
  match net u with
  | .error e => ⟨false, [], none, .error (mapPageError u.href e)⟩
  | .ok resp =>
    let html := resp.textBody
    if hasRes html then
      match processAllResources html u outputDir scan net with
      | (ws, .error m) => ⟨true, ws, none, .error m⟩
      | (ws, .ok ph) => ⟨true, ws, some (filepath, .txt ph), .ok filepath⟩
    else
      ⟨false, [], some (filepath, .txt html), .ok filepath⟩

/-- All qualifying (same-origin, truthy-attribute) assets of one page, in the
order the four phases process them. -/
def allQualified (u : Url) (scan : Scan) : List (String × Url) :=
  qualifying u scan.imgSrcs ++ qualifying u scan.cssHrefs ++
    qualifying u scan.scriptSrcs ++ qualifying u scan.canonicalHrefs

/-- The resolved URLs of all qualifying assets, in processing order. -/
def allQualifiedUrls (u : Url) (scan : Scan) : List Url :=
  (allQualified u scan).map Prod.snd

/-- The fetch schedule of one page load: the resource URLs grouped into the
concurrent batches the source creates, in the order the orchestrator awaits
them — each kind's promise array is awaited with `Promise.all` before the
next kind's requests are created. -/
def fetchSchedule (u : Url) (scan : Scan) : List (List Url) :=
  [(qualifying u scan.imgSrcs).map Prod.snd,
   (qualifying u scan.cssHrefs).map Prod.snd,
   (qualifying u scan.scriptSrcs).map Prod.snd,
   (qualifying u scan.canonicalHrefs).map Prod.snd]

/-- Drop the scanned attributes the per-kind loops skip: absent (`none`) and
empty-string (falsy) attributes. -/
def scrub (l : List (Option String)) : List (Option String) :=
  l.filter (fun a? =>
    match a? with
    | none => false
    | some s => !(s == ""))

/-- Apply `scrub` to all four attribute lists of a scan. -/
def scrubScan (s : Scan) : Scan :=
  ⟨scrub s.imgSrcs, scrub s.cssHrefs, scrub s.scriptSrcs, scrub s.canonicalHrefs⟩

/-- A sample page URL, https://h/p, used by the concrete runs below. -/
def exPage : Url := ⟨"https:", "h", "/p"⟩

/-- A network where every URL responds with byte payload [7] and text body
"body". -/
def okNet7 : Net := fun _ => .ok ⟨[7], "body"⟩

/-- A document in which the reference "/x.png" occurs twice: once in plain
text and once as the src of the single img tag the scanner finds. -/
def c2Html : String := "<p>/x.png</p><img src=\"/x.png\">"

/-- The scan of `c2Html`: one img with src "/x.png". -/
def c2Scan : Scan := ⟨[some "/x.png"], [], [], []⟩

/-- A network serving a page whose only stylesheet link is serialized without
the self-closing " />" suffix. -/
def c3aNet : Net := fun v =>
  if v == exPage then .ok ⟨[], "<link rel=\"stylesheet\" href=\"/s.css\">"⟩
  else .ok ⟨[1], "css"⟩

/-- A network serving a page with two img tags that share one src. -/
def c3bNet : Net := fun v =>
  if v == exPage then .ok ⟨[], "<img src=\"/x.png\"><img src=\"/x.png\">"⟩
  else .ok ⟨[1], "r"⟩

/-- A network serving a page with an external img reference that contains a
later same-origin reference as a substring. -/
def c3cNet : Net := fun v =>
  if v == exPage then
    .ok ⟨[], "<img src=\"https://ext.com/x.png\"><img src=\"/x.png\">"⟩
  else .ok ⟨[1], "r"⟩

/-- A network serving a page whose only img reference is external; resource
fetches would fail, but none must happen. -/
def c4Net : Net := fun v =>
  if v == exPage then .ok ⟨[], "<img src=\"https://ext.com/x.png\">"⟩
  else .error (.httpStatus 500)

/-- A network serving a page with one local img whose fetch returns HTTP 404. -/
def c5Net : Net := fun v =>
  if v == exPage then .ok ⟨[], "<img src=\"/x.png\">"⟩
  else .error (.httpStatus 404)

/-- A scan with one qualifying image and one qualifying stylesheet. -/
def c6Scan : Scan := ⟨[some "/a.png"], [some "/b.css"], [], []⟩

/-- A network whose raw byte payload [1, 2] and textual interpretation "x"
differ, separating the two retrieval modes. -/
def c7Net : Net := fun _ => .ok ⟨[1, 2], "x"⟩

/-- A network serving a plain page with no img, link or script tag at all. -/
def plainNet : Net := fun _ => .ok ⟨[], "plain text page"⟩

/-- When the pattern does not occur, JavaScript replace leaves the list
unchanged. -/
theorem replaceFirstL_of_none (pat rep l : List Char)
    (h : firstOccIdx pat l = none) : replaceFirstL pat rep l = l := by
  induction l with
  | nil =>
    cases hp : isPrefixL pat [] with
    | true => simp [firstOccIdx, hp] at h
    | false => simp [replaceFirstL, hp]
  | cons c rest ih =>
    cases hp : isPrefixL pat (c :: rest) with
    | true => simp [firstOccIdx, hp] at h
    | false =>
      cases hf : firstOccIdx pat rest with
      | none => simp [replaceFirstL, hp, ih hf]
      | some j => simp [firstOccIdx, hp, hf] at h

/-- When the pattern first occurs at `i`, JavaScript replace splices the
replacement in at `i`. -/
theorem replaceFirstL_of_some (pat rep l : List Char) (i : Nat)
    (h : firstOccIdx pat l = some i) :
    replaceFirstL pat rep l = l.take i ++ rep ++ l.drop (i + pat.length) := by
  induction l generalizing i with
  | nil =>
    cases hp : isPrefixL pat [] with
    | true =>
      simp only [firstOccIdx, hp, if_true, Option.some.injEq] at h
      subst h
      simp [replaceFirstL, hp]
    | false => simp [firstOccIdx, hp] at h
  | cons c rest ih =>
    cases hp : isPrefixL pat (c :: rest) with
    | true =>
      simp only [firstOccIdx, hp, if_true, Option.some.injEq] at h
      subst h
      simp [replaceFirstL, hp]
    | false =>
      cases hf : firstOccIdx pat rest with
      | none => simp [firstOccIdx, hp, hf] at h
      | some j =>
        simp [firstOccIdx, hp, hf] at h
        subst h
        have hd : j + 1 + pat.length = (j + pat.length) + 1 := by omega
        rw [hd]
        simp [replaceFirstL, hp, ih j hf]

/-- The index returned by `firstOccIdx` is an occurrence. -/
theorem firstOccIdx_isPrefix (pat l : List Char) (i : Nat)
    (h : firstOccIdx pat l = some i) : isPrefixL pat (l.drop i) = true := by
  induction l generalizing i with
  | nil =>
    cases hp : isPrefixL pat [] with
    | true =>
      simp only [firstOccIdx, hp, if_true, Option.some.injEq] at h
      subst h
      simpa using hp
    | false => simp [firstOccIdx, hp] at h
  | cons c rest ih =>
    cases hp : isPrefixL pat (c :: rest) with
    | true =>
      simp only [firstOccIdx, hp, if_true, Option.some.injEq] at h
      subst h
      simpa using hp
    | false =>
      cases hf : firstOccIdx pat rest with
      | none => simp [firstOccIdx, hp, hf] at h
      | some j =>
        simp [firstOccIdx, hp, hf] at h
        subst h
        simpa using ih j hf

/-- The index returned by `firstOccIdx` is the least occurrence. -/
theorem firstOccIdx_least (pat l : List Char) (i : Nat)
    (h : firstOccIdx pat l = some i) :
    ∀ j, j < i → isPrefixL pat (l.drop j) = false := by
  induction l generalizing i with
  | nil =>
    cases hp : isPrefixL pat [] with
    | true =>
      simp only [firstOccIdx, hp, if_true, Option.some.injEq] at h
      subst h
      intro j hj
      exact absurd hj (Nat.not_lt_zero j)
    | false => simp [firstOccIdx, hp] at h
  | cons c rest ih =>
    cases hp : isPrefixL pat (c :: rest) with
    | true =>
      simp only [firstOccIdx, hp, if_true, Option.some.injEq] at h
      subst h
      intro j hj
      exact absurd hj (Nat.not_lt_zero j)
    | false =>
      cases hf : firstOccIdx pat rest with
      | none => simp [firstOccIdx, hp, hf] at h
      | some j =>
        simp [firstOccIdx, hp, hf] at h
        subst h
        intro j0 hj0
        cases j0 with
        | zero => simpa using hp
        | succ k => simpa using ih j hf k (Nat.lt_of_succ_lt_succ hj0)

/-- When `firstOccIdx` finds nothing, the pattern occurs nowhere. -/
theorem firstOccIdx_none (pat l : List Char)
    (h : firstOccIdx pat l = none) :
    ∀ j, isPrefixL pat (l.drop j) = false := by
  induction l with
  | nil =>
    cases hp : isPrefixL pat [] with
    | true => simp [firstOccIdx, hp] at h
    | false =>
      intro j
      simpa using hp
  | cons c rest ih =>
    cases hp : isPrefixL pat (c :: rest) with
    | true => simp [firstOccIdx, hp] at h
    | false =>
      cases hf : firstOccIdx pat rest with
      | none =>
        intro j
        cases j with
        | zero => simpa using hp
        | succ k => simpa using ih hf k
      | some j => simp [firstOccIdx, hp, hf] at h

/-- `isPrefixL` agrees with the propositional prefix relation. -/
theorem isPrefixL_iff (a b : List Char) :
    isPrefixL a b = true ↔ ∃ t, b = a ++ t := by
  induction a generalizing b with
  | nil => simp [isPrefixL]
  | cons x xs ih =>
    cases b with
    | nil =>
      simp [isPrefixL]
    | cons y ys =>
      simp only [isPrefixL, Bool.and_eq_true, beq_iff_eq]
      constructor
      · rintro ⟨rfl, hpre⟩
        obtain ⟨t, rfl⟩ := (ih ys).mp hpre
        exact ⟨t, rfl⟩
      · rintro ⟨t, ht⟩
        injection ht with h1 h2
        subst h1
        exact ⟨rfl, (ih ys).mpr ⟨t, h2⟩⟩

/-- When a fan-out batch succeeds, it performs exactly one file write per item,
at the generated path, in item order. -/
theorem runPhase_ok_writes (fetch : Url → Except String FileContent)
    (dir dn : String) :
    ∀ (items : List (String × Url)) (reps : List (String × String)),
      (runPhase fetch dir dn items).2 = .ok reps →
      (runPhase fetch dir dn items).1.map Prod.fst =
        items.map (fun p => dir ++ "/" ++ generateResourceFileName p.2) := by
  intro items
  induction items with
  | nil =>
    intro reps _
    simp [runPhase]
  | cons p rest ih =>
    intro reps h
    obtain ⟨s, u⟩ := p
    cases hfu : fetch u with
    | error e => simp [runPhase, hfu] at h
    | ok payload =>
      cases hrest : runPhase fetch dir dn rest with
      | mk ws r =>
        cases r with
        | error m => simp [runPhase, hfu, hrest, Except.map] at h
        | ok reps' =>
          have h2 : (runPhase fetch dir dn rest).2 = .ok reps' := by rw [hrest]
          have := ih reps' h2
          rw [hrest] at this
          simp [runPhase, hfu, hrest, Except.map, this]

/-- When a fan-out batch succeeds, every item's fetch succeeded. -/
theorem runPhase_ok_net (fetch : Url → Except String FileContent)
    (dir dn : String) :
    ∀ (items : List (String × Url)) (reps : List (String × String)),
      (runPhase fetch dir dn items).2 = .ok reps →
      ∀ p ∈ items, ∃ v, fetch p.2 = .ok v := by
  intro items
  induction items with
  | nil =>
    intro reps _ p hp
    exact absurd hp (List.not_mem_nil p)
  | cons q rest ih =>
    intro reps h p hp
    obtain ⟨s, u⟩ := q
    cases hfu : fetch u with
    | error e => simp [runPhase, hfu] at h
    | ok payload =>
      cases hrest : runPhase fetch dir dn rest with
      | mk ws r =>
        cases r with
        | error m => simp [runPhase, hfu, hrest, Except.map] at h
        | ok reps' =>
          have h2 : (runPhase fetch dir dn rest).2 = .ok reps' := by rw [hrest]
          rcases List.mem_cons.mp hp with hq | hmem
          · subst hq
            exact ⟨payload, hfu⟩
          · exact ih reps' h2 p hmem

/-- A batch whose head fetch fails performs no write and returns that
failure: the whole batch is abandoned on the first error. -/
theorem runPhase_head_failure (fetch : Url → Except String FileContent)
    (dir dn : String) (s : String) (u : Url) (rest : List (String × Url))
    (e : String) (h : fetch u = .error e) :
    runPhase fetch dir dn ((s, u) :: rest) = ([], .error e) := by
  simp [runPhase, h]

/-- An empty batch performs no write and succeeds with no replacements. -/
theorem runPhase_nil (fetch : Url → Except String FileContent) (dir dn : String) :
    runPhase fetch dir dn [] = ([], .ok []) := rfl

/-- A successful `processAllResources` run decomposes into four successful
phases, its writes are their writes in order, and its document is the fold of
their replacement lists over the input. -/
theorem processAll_ok_decomp (html : String) (u : Url) (outputDir : String)
    (scan : Scan) (net : Net) (ws : List (String × FileContent)) (out : String)
    (h : processAllResources html u outputDir scan net = (ws, .ok out)) :
    ∃ w1 reps1 w2 reps2 w3 reps3 w4 reps4,
      runPhase (downloadImage net) (outputDir ++ "/" ++ generateResourceDirName u)
        (generateResourceDirName u) (qualifying u scan.imgSrcs) = (w1, .ok reps1) ∧
      runPhase (downloadTextResource net) (outputDir ++ "/" ++ generateResourceDirName u)
        (generateResourceDirName u) (qualifying u scan.cssHrefs) = (w2, .ok reps2) ∧
      runPhase (downloadTextResource net) (outputDir ++ "/" ++ generateResourceDirName u)
        (generateResourceDirName u) (qualifying u scan.scriptSrcs) = (w3, .ok reps3) ∧
      runPhase (downloadTextResource net) (outputDir ++ "/" ++ generateResourceDirName u)
        (generateResourceDirName u) (qualifying u scan.canonicalHrefs) = (w4, .ok reps4) ∧
      ws = w1 ++ w2 ++ w3 ++ w4 ∧
      out = applyPlainReps
        (applyPlainReps (applyCssReps (applyPlainReps html reps1) reps2) reps3) reps4 := by
  simp only [processAllResources] at h
  split at h
  next w1 m heq1 => simp at h
  next w1 reps1 heq1 =>
    split at h
    next w2 m heq2 => simp at h
    next w2 reps2 heq2 =>
      split at h
      next w3 m heq3 => simp at h
      next w3 reps3 heq3 =>
        split at h
        next w4 m heq4 => simp at h
        next w4 reps4 heq4 =>
          rw [Prod.mk.injEq] at h
          obtain ⟨hw, hout⟩ := h
          simp only [Except.ok.injEq] at hout
          exact ⟨w1, reps1, w2, reps2, w3, reps3, w4, reps4,
            heq1, heq2, heq3, heq4, hw.symm, hout.symm⟩

/-- Scrub drops an absent attribute. -/
theorem scrub_cons_none (rest : List (Option String)) :
    scrub (none :: rest) = scrub rest := by
  simp [scrub]

/-- Scrub drops an empty (falsy) attribute. -/
theorem scrub_cons_some_eq (s : String) (rest : List (Option String))
    (h : (s == "") = true) : scrub (some s :: rest) = scrub rest := by
  simp [scrub, h]

/-- Scrub keeps a non-empty attribute. -/
theorem scrub_cons_some_ne (s : String) (rest : List (Option String))
    (h : (s == "") = false) : scrub (some s :: rest) = some s :: scrub rest := by
  simp [scrub, h]

/-- An absent attribute contributes no qualifying asset. -/
theorem qualifying_cons_none (u : Url) (rest : List (Option String)) :
    qualifying u (none :: rest) = qualifying u rest := by
  simp [qualifying]

/-- An empty attribute contributes no qualifying asset. -/
theorem qualifying_cons_some_eq (u : Url) (s : String) (rest : List (Option String))
    (h : (s == "") = true) : qualifying u (some s :: rest) = qualifying u rest := by
  have hs : s = "" := eq_of_beq h
  subst hs
  simp [qualifying, List.filterMap_cons]

/-- A non-empty same-origin attribute contributes one qualifying asset. -/
theorem qualifying_cons_some_keep (u : Url) (s : String) (rest : List (Option String))
    (h1 : (s == "") = false) (h2 : isLocalResource (resolveUrl s u) u = true) :
    qualifying u (some s :: rest) = (s, resolveUrl s u) :: qualifying u rest := by
  have hne : ¬(s = "") := ne_of_beq_false h1
  simp [qualifying, List.filterMap_cons, hne, h2]

/-- A non-empty external attribute contributes no qualifying asset. -/
theorem qualifying_cons_some_drop (u : Url) (s : String) (rest : List (Option String))
    (h1 : (s == "") = false) (h2 : isLocalResource (resolveUrl s u) u = false) :
    qualifying u (some s :: rest) = qualifying u rest := by
  have hne : ¬(s = "") := ne_of_beq_false h1
  simp [qualifying, List.filterMap_cons, hne, h2]

/-- The qualifying assets of a scrubbed attribute list are those of the
original: absent and empty attributes are invisible to the pipeline. -/
theorem qualifying_scrub (u : Url) (l : List (Option String)) :
    qualifying u (scrub l) = qualifying u l := by
  induction l with
  | nil => rfl
  | cons a rest ih =>
    cases a with
    | none => rw [scrub_cons_none, qualifying_cons_none, ih]
    | some s =>
      cases hs : (s == "") with
      | true => rw [scrub_cons_some_eq s rest hs, qualifying_cons_some_eq u s rest hs, ih]
      | false =>
        cases hl : isLocalResource (resolveUrl s u) u with
        | true =>
          rw [scrub_cons_some_ne s rest hs,
            qualifying_cons_some_keep u s (scrub rest) hs hl,
            qualifying_cons_some_keep u s rest hs hl, ih]
        | false =>
          rw [scrub_cons_some_ne s rest hs,
            qualifying_cons_some_drop u s (scrub rest) hs hl,
            qualifying_cons_some_drop u s rest hs hl, ih]

/-- `processAllResources` is unchanged by scrubbing the scan: it consumes the
scan only through `qualifying`. -/
theorem processAll_scrub (html : String) (u : Url) (outputDir : String)
    (scan : Scan) (net : Net) :
    processAllResources html u outputDir (scrubScan scan) net =
      processAllResources html u outputDir scan net := by
  simp only [processAllResources, scrubScan]
  rw [qualifying_scrub, qualifying_scrub, qualifying_scrub, qualifying_scrub]

/-- With no qualifying asset, `processAllResources` performs no resource
write and returns the document unchanged. -/
theorem processAll_zero (html : String) (u : Url) (outputDir : String)
    (scan : Scan) (net : Net) (h : allQualified u scan = []) :
    processAllResources html u outputDir scan net = ([], .ok html) := by
  simp only [allQualified, List.append_eq_nil] at h
  obtain ⟨⟨⟨h1, h2⟩, h3⟩, h4⟩ := h
  simp [processAllResources, h1, h2, h3, h4, runPhase, applyPlainReps, applyCssReps]

/-- C1 (counterexample): the claim says the uniform table applies to resource
fetches too, so a resource HTTP 403 should map to Forbidden, connection
refused to ConnectionRefused and timeout to Timeout; the resource-fetch catch
blocks instead produce the generic network-error wrap in all three cases. -/
theorem c1_failure_mapping_counterexample :
    specFailureKind (.httpStatus 403) = .Forbidden ∧
    textErrKind (.httpStatus 403) = .NetworkError ∧
    imageErrKind (.httpStatus 403) = .NetworkError ∧
    specFailureKind .connRefused = .ConnectionRefused ∧
    textErrKind .connRefused = .NetworkError ∧
    specFailureKind .timedOut = .Timeout ∧
    textErrKind .timedOut = .NetworkError ∧
    mapTextResourceError "https://h/s.css" (.httpStatus 403) =
      "Failed to download resource: https://h/s.css - Request failed with status code 403" := by
  decide

/-- C1 (amended): the page fetch follows the spec's uniform failure table
exactly; each resource fetch (image and text alike) follows it only after
collapsing Forbidden, ConnectionRefused and Timeout into NetworkError, since
its catch block has no branches for 403, ECONNREFUSED or ETIMEDOUT. -/
theorem c1_failure_mapping_amended (e : TransportError) :
    pageErrKind e = specFailureKind e ∧
    imageErrKind e = collapseResourceKind (specFailureKind e) ∧
    textErrKind e = collapseResourceKind (specFailureKind e) := by
  cases e with
  | httpStatus c =>
    by_cases h4 : c = 404
    · subst h4
      decide
    · by_cases h3 : c = 403
      · subst h3
        decide
      · have b4 : (c == 404) = false := by simpa using h4
        have b3 : (c == 403) = false := by simpa using h3
        have s4 : (statusOf (TransportError.httpStatus c) == some 404) = (c == 404) := rfl
        have s3 : (statusOf (TransportError.httpStatus c) == some 403) = (c == 403) := rfl
        have sg : (statusOf (TransportError.httpStatus c)).getD 0 = c := rfl
        by_cases h5 : c ≥ 500
        · simp [pageErrKind, imageErrKind, textErrKind, specFailureKind,
            collapseResourceKind, s4, s3, sg, b4, b3, h5]
        · simp [pageErrKind, imageErrKind, textErrKind, specFailureKind,
            collapseResourceKind, s4, s3, sg, b4, b3, h5]
  | dnsFail => decide
  | connRefused => decide
  | timedOut => decide
  | other m => exact ⟨rfl, rfl, rfl⟩

/-- C2 (counterexample): one img asset with src "/x.png" is fetched and
written successfully, yet only the first occurrence of "/x.png" in the
document is replaced — the img tag's own occurrence survives, so not every
occurrence of the literal reference is rewritten. -/
theorem c2_every_occurrence_counterexample :
    processAllResources c2Html exPage "out" c2Scan okNet7 =
      ([("out/h-p_files/h-x.png", .bin [7])],
        .ok "<p>h-p_files/h-x.png</p><img src=\"/x.png\">") ∧
    substrB "/x.png" "<p>h-p_files/h-x.png</p><img src=\"/x.png\">" = true := by
  decide

/-- C2 (amended): the rewrite step for an image, script or canonical asset is
one JavaScript string replace: when the original reference does not occur in
the document the step is the identity, and otherwise it replaces exactly the
first (leftmost) occurrence with the local relative path, leaving every later
occurrence unchanged. -/
theorem c2_rewrite_first_occurrence (doc s rep : String) :
    (substrB s doc = false → applyPlainReps doc [(s, rep)] = doc) ∧
    (∀ i, firstOccIdx s.data doc.data = some i →
      applyPlainReps doc [(s, rep)] =
        ⟨doc.data.take i ++ rep.data ++ doc.data.drop (i + s.data.length)⟩ ∧
      isPrefixL s.data (doc.data.drop i) = true ∧
      (∀ j, j < i → isPrefixL s.data (doc.data.drop j) = false)) := by
  constructor
  · intro h
    rw [substrB] at h
    cases hn : firstOccIdx s.data doc.data with
    | some i => rw [hn] at h; simp at h
    | none => simp [applyPlainReps, jsReplaceFirst, replaceFirstL_of_none _ _ _ hn]
  · intro i hi
    refine ⟨?_, firstOccIdx_isPrefix _ _ _ hi, firstOccIdx_least _ _ _ hi⟩
    simp [applyPlainReps, jsReplaceFirst, replaceFirstL_of_some s.data rep.data doc.data i hi]

/-- Witness for C2: in "aXbX" with pattern "X", the rewrite replaces the
occurrence at index 1 and no earlier position holds the pattern. -/
theorem c2_rewrite_first_occurrence_witness :
    applyPlainReps "aXbX" [("X", "Y")] =
      ⟨"aXbX".data.take 1 ++ "Y".data ++ "aXbX".data.drop (1 + "X".data.length)⟩ ∧
    isPrefixL "X".data ("aXbX".data.drop 1) = true ∧
    (∀ j, j < 1 → isPrefixL "X".data ("aXbX".data.drop j) = false) :=
  (c2_rewrite_first_occurrence "aXbX" "X" "Y").2 1 (by decide)

/-- C8 (confirmed): for each stylesheet asset the rewrite replaces exactly
the pattern `href="<orig>" />` by `href="<local>">`, and when that exact
substring is absent the step leaves the document unchanged. -/
theorem c8_stylesheet_rewrite (doc href newHref : String) :
    (substrB ("href=\"" ++ href ++ "\" />") doc = false →
      applyCssReps doc [(href, newHref)] = doc) ∧
    (∀ i, firstOccIdx ("href=\"" ++ href ++ "\" />").data doc.data = some i →
      applyCssReps doc [(href, newHref)] =
        ⟨doc.data.take i ++ ("href=\"" ++ newHref ++ "\">").data ++
          doc.data.drop (i + ("href=\"" ++ href ++ "\" />").data.length)⟩) := by
  have e1 : applyCssReps doc [(href, newHref)] =
      jsReplaceFirst doc ("href=\"" ++ href ++ "\" />") ("href=\"" ++ newHref ++ "\">") := rfl
  constructor
  · intro h
    rw [substrB] at h
    cases hn : firstOccIdx ("href=\"" ++ href ++ "\" />").data doc.data with
    | some i => rw [hn] at h; simp at h
    | none =>
      rw [e1, jsReplaceFirst, replaceFirstL_of_none _ _ _ hn]
  · intro i hi
    rw [e1, jsReplaceFirst, replaceFirstL_of_some _ _ _ i hi]

/-- Witness for C8: a stylesheet link serialized with the self-closing
suffix, at index 6 of the document, is rewritten. -/
theorem c8_stylesheet_rewrite_witness :
    applyCssReps "<link href=\"/s.css\" />" [("/s.css", "f/h-s.css")] =
      ⟨"<link href=\"/s.css\" />".data.take 6 ++ ("href=\"" ++ "f/h-s.css" ++ "\">").data ++
        "<link href=\"/s.css\" />".data.drop
          (6 + ("href=\"" ++ "/s.css" ++ "\" />").data.length)⟩ :=
  (c8_stylesheet_rewrite "<link href=\"/s.css\" />" "/s.css" "f/h-s.css").2 6 (by decide)

/-- C3 (counterexample): (a) a page with one qualifying stylesheet whose tag
is serialized without " />" gets zero substitutions (output equals input)
although N = 1; (b) two qualifying references with one shared src yield
writes to a single distinct path, not N = 2 files; (c) a replacement alters
the external reference "https://ext.com/x.png", which is not byte-identical
in the output. -/
theorem c3_counts_counterexample :
    (allQualified exPage ⟨[], [some "/s.css"], [], []⟩).length = 1 ∧
    (load exPage "out" ⟨[], [some "/s.css"], [], []⟩ c3aNet).pageWrite =
      some ("out/h-p.html", .txt "<link rel=\"stylesheet\" href=\"/s.css\">") ∧
    (load exPage "out" ⟨[], [some "/s.css"], [], []⟩ c3aNet).result = .ok "out/h-p.html" ∧
    (allQualified exPage ⟨[some "/x.png", some "/x.png"], [], [], []⟩).length = 2 ∧
    ((load exPage "out" ⟨[some "/x.png", some "/x.png"], [], [], []⟩ c3bNet).resourceWrites.map
        Prod.fst).dedup = ["out/h-p_files/h-x.png"] ∧
    (load exPage "out"
        ⟨[some "https://ext.com/x.png", some "/x.png"], [], [], []⟩ c3cNet).pageWrite =
      some ("out/h-p.html",
        .txt "<img src=\"https://ext.comh-p_files/h-x.png\"><img src=\"/x.png\">") := by
  decide

/-- C3 (amended): a successful run performs exactly one resource-file write
per qualifying same-origin reference — N writes, at the generated paths in
processing order (so N distinct files exactly when the generated names are
distinct); external references are never fetched, and each fetched asset gets
one first-occurrence replacement attempt (a stylesheet attempt with the exact
pattern absent is a no-op). -/
theorem c3_resource_write_count (html : String) (u : Url) (outputDir : String)
    (scan : Scan) (net : Net) (ws : List (String × FileContent)) (out : String)
    (h : processAllResources html u outputDir scan net = (ws, .ok out)) :
    ws.map Prod.fst = (allQualified u scan).map
      (fun p => outputDir ++ "/" ++ generateResourceDirName u ++ "/" ++
        generateResourceFileName p.2) ∧
    ws.length = (allQualified u scan).length := by
  obtain ⟨w1, reps1, w2, reps2, w3, reps3, w4, reps4, e1, e2, e3, e4, hw, _⟩ :=
    processAll_ok_decomp html u outputDir scan net ws out h
  have m1 : w1.map Prod.fst = (qualifying u scan.imgSrcs).map
      (fun p => outputDir ++ "/" ++ generateResourceDirName u ++ "/" ++
        generateResourceFileName p.2) := by
    have := runPhase_ok_writes (downloadImage net)
      (outputDir ++ "/" ++ generateResourceDirName u) (generateResourceDirName u)
      (qualifying u scan.imgSrcs) reps1 (by rw [e1])
    rw [e1] at this
    exact this
  have m2 : w2.map Prod.fst = (qualifying u scan.cssHrefs).map
      (fun p => outputDir ++ "/" ++ generateResourceDirName u ++ "/" ++
        generateResourceFileName p.2) := by
    have := runPhase_ok_writes (downloadTextResource net)
      (outputDir ++ "/" ++ generateResourceDirName u) (generateResourceDirName u)
      (qualifying u scan.cssHrefs) reps2 (by rw [e2])
    rw [e2] at this
    exact this
  have m3 : w3.map Prod.fst = (qualifying u scan.scriptSrcs).map
      (fun p => outputDir ++ "/" ++ generateResourceDirName u ++ "/" ++
        generateResourceFileName p.2) := by
    have := runPhase_ok_writes (downloadTextResource net)
      (outputDir ++ "/" ++ generateResourceDirName u) (generateResourceDirName u)
      (qualifying u scan.scriptSrcs) reps3 (by rw [e3])
    rw [e3] at this
    exact this
  have m4 : w4.map Prod.fst = (qualifying u scan.canonicalHrefs).map
      (fun p => outputDir ++ "/" ++ generateResourceDirName u ++ "/" ++
        generateResourceFileName p.2) := by
    have := runPhase_ok_writes (downloadTextResource net)
      (outputDir ++ "/" ++ generateResourceDirName u) (generateResourceDirName u)
      (qualifying u scan.canonicalHrefs) reps4 (by rw [e4])
    rw [e4] at this
    exact this
  subst hw
  have hmap : (w1 ++ w2 ++ w3 ++ w4).map Prod.fst = (allQualified u scan).map
      (fun p => outputDir ++ "/" ++ generateResourceDirName u ++ "/" ++
        generateResourceFileName p.2) := by
    simp only [allQualified, List.map_append, m1, m2, m3, m4]
  refine ⟨hmap, ?_⟩
  have := congrArg List.length hmap
  simpa using this

/-- Witness for C3: the single-image page run of `c2Html` writes exactly one
file at the generated path. -/
theorem c3_resource_write_count_witness :
    [("out/h-p_files/h-x.png", FileContent.bin [7])].map Prod.fst =
      (allQualified exPage c2Scan).map
        (fun p => "out" ++ "/" ++ generateResourceDirName exPage ++ "/" ++
          generateResourceFileName p.2) ∧
    [("out/h-p_files/h-x.png", FileContent.bin [7])].length =
      (allQualified exPage c2Scan).length :=
  c3_resource_write_count c2Html exPage "out" c2Scan okNet7
    [("out/h-p_files/h-x.png", FileContent.bin [7])]
    "<p>h-p_files/h-x.png</p><img src=\"/x.png\">" (by decide)

/-- C4 (counterexample): a page whose only img reference is external has zero
qualifying assets, yet the pre-check sees "<img" and the resource directory
is created. -/
theorem c4_resource_dir_counterexample :
    allQualified exPage ⟨[some "https://ext.com/x.png"], [], [], []⟩ = [] ∧
    (load exPage "out" ⟨[some "https://ext.com/x.png"], [], [], []⟩
      c4Net).resourceDirCreated = true := by
  decide

/-- C4 (amended): with zero qualifying assets the run succeeds and the
persisted page equals the fetched input exactly; but the resource directory
is skipped only when the cheap pre-check fails — it is created whenever the
raw document contains one of "<img", "<link", "<script", qualifying or not. -/
theorem c4_no_asset_identity (u : Url) (outputDir : String) (scan : Scan)
    (net : Net) (r : HttpOk) (hn : net u = .ok r)
    (hq : allQualified u scan = []) :
    (load u outputDir scan net).pageWrite =
      some (outputDir ++ "/" ++ generateFilename u, .txt r.textBody) ∧
    (load u outputDir scan net).result = .ok (outputDir ++ "/" ++ generateFilename u) ∧
    (load u outputDir scan net).resourceWrites = [] ∧
    (load u outputDir scan net).resourceDirCreated = hasRes r.textBody := by
  have hz := processAll_zero r.textBody u outputDir scan net hq
  cases hr : hasRes r.textBody with
  | true => simp [load, hn, hr, hz]
  | false => simp [load, hn, hr]

/-- Witness for C4: a plain page with no candidate tag at all. -/
theorem c4_no_asset_identity_witness :
    (load exPage "out" ⟨[], [], [], []⟩ plainNet).pageWrite =
      some ("out" ++ "/" ++ generateFilename exPage, .txt "plain text page") ∧
    (load exPage "out" ⟨[], [], [], []⟩ plainNet).result =
      .ok ("out" ++ "/" ++ generateFilename exPage) ∧
    (load exPage "out" ⟨[], [], [], []⟩ plainNet).resourceWrites = [] ∧
    (load exPage "out" ⟨[], [], [], []⟩ plainNet).resourceDirCreated =
      hasRes "plain text page" :=
  c4_no_asset_identity exPage "out" ⟨[], [], [], []⟩ plainNet ⟨[], "plain text page"⟩
    (by decide) (by decide)

/-- C5 (confirmed): when any qualifying resource fetch fails, `load` ends in
an error and the main page file is never written; in the spec's scenario — a
page whose only resource is an img returning HTTP 404 — the error is the
NotFound message naming that resource's URL. -/
theorem c5_resource_failure_aborts :
    (∀ (u : Url) (outputDir : String) (scan : Scan) (net : Net) (r : HttpOk),
      net u = .ok r → hasRes r.textBody = true →
      (∃ p ∈ allQualified u scan, ∃ te, net p.2 = .error te) →
      (load u outputDir scan net).pageWrite = none ∧
      ∃ m, (load u outputDir scan net).result = .error m) ∧
    (∀ (u : Url) (outputDir : String) (net : Net) (r : HttpOk) (s : String),
      net u = .ok r → hasRes r.textBody = true → (s == "") = false →
      isLocalResource (resolveUrl s u) u = true →
      net (resolveUrl s u) = .error (.httpStatus 404) →
      (load u outputDir ⟨[some s], [], [], []⟩ net).result =
        .error ("Image not found (404): " ++ (resolveUrl s u).href) ∧
      (load u outputDir ⟨[some s], [], [], []⟩ net).pageWrite = none) := by
  constructor
  · intro u outputDir scan net r hn hres hfail
    cases hp : processAllResources r.textBody u outputDir scan net with
    | mk ws res =>
      cases res with
      | error m =>
        exact ⟨by simp [load, hn, hres, hp], m, by simp [load, hn, hres, hp]⟩
      | ok out =>
        exfalso
        obtain ⟨p, hmem, te, hte⟩ := hfail
        obtain ⟨w1, reps1, w2, reps2, w3, reps3, w4, reps4, e1, e2, e3, e4, _, _⟩ :=
          processAll_ok_decomp r.textBody u outputDir scan net ws out hp
        simp only [allQualified, List.mem_append] at hmem
        rcases hmem with ((hm1 | hm2) | hm3) | hm4
        · obtain ⟨v, hv⟩ := runPhase_ok_net (downloadImage net)
            (outputDir ++ "/" ++ generateResourceDirName u) (generateResourceDirName u)
            (qualifying u scan.imgSrcs) reps1 (by rw [e1]) p hm1
          rw [downloadImage, hte] at hv
          simp at hv
        · obtain ⟨v, hv⟩ := runPhase_ok_net (downloadTextResource net)
            (outputDir ++ "/" ++ generateResourceDirName u) (generateResourceDirName u)
            (qualifying u scan.cssHrefs) reps2 (by rw [e2]) p hm2
          rw [downloadTextResource, hte] at hv
          simp at hv
        · obtain ⟨v, hv⟩ := runPhase_ok_net (downloadTextResource net)
            (outputDir ++ "/" ++ generateResourceDirName u) (generateResourceDirName u)
            (qualifying u scan.scriptSrcs) reps3 (by rw [e3]) p hm3
          rw [downloadTextResource, hte] at hv
          simp at hv
        · obtain ⟨v, hv⟩ := runPhase_ok_net (downloadTextResource net)
            (outputDir ++ "/" ++ generateResourceDirName u) (generateResourceDirName u)
            (qualifying u scan.canonicalHrefs) reps4 (by rw [e4]) p hm4
          rw [downloadTextResource, hte] at hv
          simp at hv
  · intro u outputDir net r s hn hres hsne hloc h404
    have hne : ¬(s = "") := ne_of_beq_false hsne
    have hq : qualifying u [some s] = [(s, resolveUrl s u)] := by
      simp [qualifying, List.filterMap_cons, hne, hloc]
    have hfetch : downloadImage net (resolveUrl s u) =
        .error ("Image not found (404): " ++ (resolveUrl s u).href) := by
      rw [downloadImage, h404]
      rfl
    have hrp := runPhase_head_failure (downloadImage net)
      (outputDir ++ "/" ++ generateResourceDirName u) (generateResourceDirName u)
      s (resolveUrl s u) [] _ hfetch
    have hpa : processAllResources r.textBody u outputDir ⟨[some s], [], [], []⟩ net =
        ([], .error ("Image not found (404): " ++ (resolveUrl s u).href)) := by
      simp [processAllResources, hq, hrp]
    exact ⟨by simp [load, hn, hres, hpa], by simp [load, hn, hres, hpa]⟩

/-- Witness for C5: the page at https://h/p whose only resource "/x.png"
responds 404; `load` errors with the NotFound message naming the resource URL
and writes no page file. -/
theorem c5_resource_failure_aborts_witness :
    ((load exPage "out" ⟨[some "/x.png"], [], [], []⟩ c5Net).pageWrite = none ∧
      ∃ m, (load exPage "out" ⟨[some "/x.png"], [], [], []⟩ c5Net).result = .error m) ∧
    ((load exPage "out" ⟨[some "/x.png"], [], [], []⟩ c5Net).result =
        .error ("Image not found (404): " ++ (resolveUrl "/x.png" exPage).href) ∧
      (load exPage "out" ⟨[some "/x.png"], [], [], []⟩ c5Net).pageWrite = none) :=
  ⟨c5_resource_failure_aborts.1 exPage "out" ⟨[some "/x.png"], [], [], []⟩ c5Net
      ⟨[], "<img src=\"/x.png\">"⟩ (by decide) (by decide)
      ⟨("/x.png", resolveUrl "/x.png" exPage), by decide, .httpStatus 404, by decide⟩,
    c5_resource_failure_aborts.2 exPage "out" c5Net ⟨[], "<img src=\"/x.png\">"⟩ "/x.png"
      (by decide) (by decide) (by decide) (by decide) (by decide)⟩

/-- C6 (counterexample): on a page with one qualifying image and one
qualifying stylesheet both fetches are scheduled, but no concurrent batch
contains both — the stylesheet request is only created after the image batch
is fully awaited, so not all qualifying fetches of one page run concurrently. -/
theorem c6_concurrent_batch_counterexample :
    resolveUrl "/a.png" exPage ∈ (fetchSchedule exPage c6Scan).flatten ∧
    resolveUrl "/b.css" exPage ∈ (fetchSchedule exPage c6Scan).flatten ∧
    ∀ b ∈ fetchSchedule exPage c6Scan,
      ¬(resolveUrl "/a.png" exPage ∈ b ∧ resolveUrl "/b.css" exPage ∈ b) := by
  decide

/-- C6 (amended): fetches are concurrent only within an asset kind: the
schedule is four batches (images, stylesheets, scripts, canonical links),
each awaited fully before the next, and together covering exactly the
qualifying assets in processing order; within one batch the first failing
fetch abandons the remainder and its error propagates. -/
theorem c6_phase_schedule :
    (∀ (u : Url) (scan : Scan),
      (fetchSchedule u scan).flatten = allQualifiedUrls u scan) ∧
    (∀ (fetch : Url → Except String FileContent) (dir dn s : String) (u : Url)
      (rest : List (String × Url)) (e : String),
      fetch u = .error e → runPhase fetch dir dn ((s, u) :: rest) = ([], .error e)) := by
  constructor
  · intro u scan
    simp [fetchSchedule, allQualifiedUrls, allQualified, List.flatten, List.map_append,
      List.append_assoc]
  · intro fetch dir dn s u rest e h
    exact runPhase_head_failure fetch dir dn s u rest e h

/-- Witness for C6: a failing head fetch abandons its batch. -/
theorem c6_phase_schedule_witness :
    runPhase (fun _ => .error "boom") "d" "n" [("s", exPage)] = ([], .error "boom") :=
  c6_phase_schedule.2 (fun _ => .error "boom") "d" "n" "s" exPage [] "boom" rfl

/-- C7 (counterexample): a response whose raw byte payload is [1, 2] and
whose textual interpretation is "x": the image fetch yields the raw bytes,
but the text-resource fetch (used for stylesheets, scripts and canonical
links) yields the textual interpretation, not the binary-safe payload. -/
theorem c7_binary_safe_counterexample :
    downloadImage c7Net exPage = .ok (.bin [1, 2]) ∧
    downloadTextResource c7Net exPage = .ok (.txt "x") ∧
    downloadTextResource c7Net exPage ≠ .ok (.bin [1, 2]) := by
  decide

/-- C7 (amended): only image fetches request the arraybuffer (raw byte)
payload; stylesheet, script and canonical fetches go through the HTTP
client's default textual response handling, so their textual interpretation
happens at fetch time. -/
theorem c7_payload_kinds (net : Net) (u : Url) (r : HttpOk) (h : net u = .ok r) :
    downloadImage net u = .ok (.bin r.binaryBody) ∧
    downloadTextResource net u = .ok (.txt r.textBody) := by
  rw [downloadImage, downloadTextResource, h]
  exact ⟨rfl, rfl⟩

/-- Witness for C7. -/
theorem c7_payload_kinds_witness :
    downloadImage c7Net ⟨"https:", "h", "/y.css"⟩ = .ok (.bin [1, 2]) ∧
    downloadTextResource c7Net ⟨"https:", "h", "/y.css"⟩ = .ok (.txt "x") :=
  c7_payload_kinds c7Net ⟨"https:", "h", "/y.css"⟩ ⟨[1, 2], "x"⟩ rfl

/-- C10 (confirmed): scanned elements whose src/href attribute is absent or
empty are skipped entirely — deleting them from the scan changes neither the
qualifying asset list (so no fetch and no file write is attributed to them)
nor any observable outcome of `load` (directory creation, resource writes,
page write, result). -/
theorem c10_missing_attr_skipped (u : Url) (outputDir : String) (scan : Scan)
    (net : Net) :
    load u outputDir (scrubScan scan) net = load u outputDir scan net ∧
    allQualified u (scrubScan scan) = allQualified u scan := by
  constructor
  · simp only [load, processAll_scrub]
  · simp [allQualified, scrubScan, qualifying_scrub]

/-- C9 (counterexample): for https://h/a.css/b.css the source removes the
FIRST occurrence of ".css" from the path (yielding h-a-b-css.css), not the
trailing extension as the claim states (which would yield h-a-css-b.css). -/
theorem c9_extension_strip_counterexample :
    generateResourceFileName ⟨"https:", "h", "/a.css/b.css"⟩ = "h-a-b-css.css" ∧
    specResourceFileName ⟨"https:", "h", "/a.css/b.css"⟩ = "h-a-css-b.css" ∧
    generateResourceFileName ⟨"https:", "h", "/a.css/b.css"⟩ ≠
      specResourceFileName ⟨"https:", "h", "/a.css/b.css"⟩ := by
  decide

/-- C9 (amended): `generateResourceFileName` removes the FIRST occurrence of
the extension substring (extension defaulting to ".html" when the path has
none) before substituting and re-appending; it agrees with the claim's
strip-the-trailing-extension reading exactly when that substring either does
not occur in the path or first occurs at the very end. -/
theorem c9_resource_filename (u : Url) :
    (firstOccIdx (if extnameOf u.pathname == "" then ".html"
        else extnameOf u.pathname).data u.pathname.data = none →
      generateResourceFileName u = specResourceFileName u) ∧
    (∀ i,
      firstOccIdx (if extnameOf u.pathname == "" then ".html"
        else extnameOf u.pathname).data u.pathname.data = some i →
      i + (if extnameOf u.pathname == "" then ".html"
        else extnameOf u.pathname).data.length = u.pathname.data.length →
      generateResourceFileName u = specResourceFileName u) := by
  set E : String := if extnameOf u.pathname == "" then ".html" else extnameOf u.pathname
    with hE
  have hmain : replaceFirstL E.data "".data u.pathname.data =
      stripSuffixL E.data u.pathname.data →
      generateResourceFileName u = specResourceFileName u := by
    intro h1
    show charSub (u.hostname ++ jsReplaceFirst u.pathname E "") ++ E =
      charSub (u.hostname ++ (⟨stripSuffixL E.data u.pathname.data⟩ : String)) ++ E
    rw [jsReplaceFirst, h1]
  constructor
  · intro hnone
    apply hmain
    rw [replaceFirstL_of_none _ _ _ hnone]
    cases hb : isPrefixL E.data.reverse u.pathname.data.reverse with
    | false => rw [stripSuffixL, if_neg (by simp [hb])]
    | true =>
      exfalso
      obtain ⟨t, ht⟩ := (isPrefixL_iff _ _).mp hb
      have hpd : u.pathname.data = t.reverse ++ E.data := by
        have h2 := congrArg List.reverse ht
        simpa using h2
      have hocc : isPrefixL E.data (u.pathname.data.drop t.reverse.length) = true := by
        rw [hpd, List.drop_left]
        exact (isPrefixL_iff _ _).mpr ⟨[], by simp⟩
      have hfalse := firstOccIdx_none _ _ hnone t.reverse.length
      rw [hocc] at hfalse
      exact Bool.noConfusion hfalse
  · intro i hsome hend
    apply hmain
    have hpre := firstOccIdx_isPrefix _ _ _ hsome
    obtain ⟨t, ht⟩ := (isPrefixL_iff _ _).mp hpre
    have hlen : (u.pathname.data.drop i).length = E.data.length := by
      rw [List.length_drop]
      omega
    have ht0 : t = [] := by
      rw [ht] at hlen
      simp [List.length_append] at hlen
      exact hlen
    subst ht0
    have hdropEq : u.pathname.data.drop i = E.data := by simpa using ht
    have hsplit : u.pathname.data = u.pathname.data.take i ++ E.data := by
      conv_lhs => rw [← List.take_append_drop i u.pathname.data]
      rw [hdropEq]
    have hrev : isPrefixL E.data.reverse u.pathname.data.reverse = true := by
      apply (isPrefixL_iff _ _).mpr
      refine ⟨(u.pathname.data.take i).reverse, ?_⟩
      conv_lhs => rw [hsplit]
      rw [List.reverse_append]
    have hi : u.pathname.data.length - E.data.length = i := by omega
    have hde : ("" : String).data = ([] : List Char) := rfl
    rw [replaceFirstL_of_some _ _ _ i hsome, hend, List.drop_length,
      stripSuffixL, if_pos hrev, hi, hde]
    simp

/-- Witness for C9: for https://h/x.png the extension ".png" first occurs
exactly at the end of the path, and the source and spec readings agree. -/
theorem c9_resource_filename_witness :
    generateResourceFileName ⟨"https:", "h", "/x.png"⟩ =
      specResourceFileName ⟨"https:", "h", "/x.png"⟩ :=
  (c9_resource_filename ⟨"https:", "h", "/x.png"⟩).2 2 (by decide) (by decide)
